import Mathlib

/-!
Shallow embedding of `src/modules/gltools/src/lib/state-tracker/track-context-state.ts`:
a WebGL context state cache with hooked setter/getter interceptors, a scope
stack (push/pop) for save/restore, and idempotent installation.

Representation choices:
* Parameter identifiers (`pname`s) are `Nat`.
* A JS parameter value is `Value`: `undefined` models `undefined`, `num` a numeric
  or other scalar value, `arr` an array object carrying a container identity
  `ref` (modelling JS reference identity) and its element list.
* JS objects used as string-keyed records (`gl.state.cache`, the scope frames,
  the `values` argument of `_updateCache`) are association lists `KVMap` with
  JS object semantics: `in` is key membership, indexing an absent key yields
  `undefined`, assignment replaces in place or appends, and `for … in`
  iterates entries in insertion order with distinct keys.
* The scope stack is a `List KVMap` whose head is the top (most recent) frame,
  mirroring the last element of the JS `stateStack` array.
-/

set_option autoImplicit false

namespace LumaState

/-- A JS value stored in the state cache: `undefined`, a scalar, or an array
object with a container identity `ref` (JS reference) and its elements. -/
inductive Value where
  | undefined
  | num (n : Int)
  | arr (ref : Nat) (elems : List Int)
  deriving DecidableEq

/-- JS strict equality `===`: scalars compare by value, array objects compare
by reference identity, `undefined === undefined`. -/
def jsStrictEq : Value → Value → Bool
  | .undefined, .undefined => true
  | .num a, .num b => a == b
  | .arr r _, .arr s _ => r == s
  | _, _ => false

/-- Modelled from the spec: `deepArrayEqual` (from the gltools `utils` module,
which is not under `src/`) treats two values as equal only if recursively
structurally equal — arrays compare element-wise, order-sensitively,
regardless of container identity; other values compare by strict equality. -/
def deepArrayEqual : Value → Value → Bool
  | .arr _ xs, .arr _ ys => xs == ys
  | a, b => jsStrictEq a b

/-- Parameter identifier (GL pname). -/
abbrev Key := Nat

/-- A JS object used as a record from parameter identifier to value, as an
insertion-ordered association list with distinct keys on construction. -/
abbrev KVMap := List (Key × Value)

/-- JS `key in obj`: key membership. -/
def KVMap.hasKey : KVMap → Key → Bool
  | [], _ => false
  | (k', _) :: rest, k => if k' = k then true else KVMap.hasKey rest k

/-- JS `obj[key]`: the stored value, or `undefined` when the key is absent. -/
def KVMap.getValue : KVMap → Key → Value
  | [], _ => .undefined
  | (k', v) :: rest, k => if k' = k then v else KVMap.getValue rest k

/-- JS `obj[key] = v`: replace in place when present, else append. -/
def KVMap.setValue : KVMap → Key → Value → KVMap
  | [], k, v => [(k, v)]
  | (k', v') :: rest, k, v =>
    if k' = k then (k', v) :: rest else (k', v') :: KVMap.setValue rest k v

/-- The underlying `WebGLRenderingContext`, treated per the spec as an opaque
capability object with named get/set operations. We record its parameter
state, its bound program, and how many times each original (unwrapped)
operation has been invoked, so that elision of underlying calls is
observable. -/
structure NativeContext where
  params : KVMap
  boundProgram : Option Nat
  setterCalls : Nat
  getterCalls : Nat
  programCalls : Nat
  deriving DecidableEq

/-- One invocation of an original setter (`originalSetterFunc(...params)`):
the context applies the parameter values carried by the call. -/
def NativeContext.origSet (n : NativeContext) (values : KVMap) : NativeContext :=
  { n with
    params := values.foldl (fun p kv => KVMap.setValue p kv.1 kv.2) n.params
    setterCalls := n.setterCalls + 1 }

/-- One invocation of an original getter (`originalGetterFunc(pname)`):
a live read of the context parameter (`none` models `pname === undefined`). -/
def NativeContext.origGet (n : NativeContext) (pname : Option Key) :
    Value × NativeContext :=
  ((match pname with
    | some k => KVMap.getValue n.params k
    | none => .undefined),
   { n with getterCalls := n.getterCalls + 1 })

/-- One invocation of the original `useProgram(handle)`. -/
def NativeContext.origUseProgram (n : NativeContext) (handle : Option Nat) :
    NativeContext :=
  { n with boundProgram := handle, programCalls := n.programCalls + 1 }

/-- The `GLState` instance attached as `gl.state` (class `GLState` in the
source): cached program handle, the scope frame stack (head = top frame,
mirroring the last element of the JS array), the `enable` flag, and the
parameter cache. -/
structure GLState where
  program : Option Nat
  stateStack : List KVMap
  enable : Bool
  cache : KVMap
  deriving DecidableEq

/-- The result object returned by `GLState._updateCache`. -/
structure UpdateResult where
  valueChanged : Bool
  oldValue : Value
  deriving DecidableEq

/-- The `for (const key in values)` loop body of `GLState._updateCache`:
threads the cache, the (optional) top stack frame `oldValues`, the
`valueChanged` flag and `oldValue` through the entries of `values`. -/
def updateEntries : KVMap → KVMap → Option KVMap → Bool → Value →
    Bool × Value × KVMap × Option KVMap
  | [], cache, frame, changed, old => (changed, old, cache, frame)
  | (key, value) :: rest, cache, frame, changed, old =>
    let cached := KVMap.getValue cache key
    if deepArrayEqual value cached then
      updateEntries rest cache frame changed old
    else
      updateEntries rest (KVMap.setValue cache key value)
        (frame.map fun f =>
          if KVMap.hasKey f key then f else KVMap.setValue f key cached)
        true cached

/-- Reattach a possibly-modified top frame to the stack (the JS loop mutates
the top frame in place; here we write it back). -/
def restack : Option KVMap → List KVMap → List KVMap
  | some f, stack => f :: stack.tail
  | none, stack => stack

/-- `GLState._updateCache(values)`: for each entry, compare the candidate
against the cached value with `deepArrayEqual`; on a real change, record the
pre-change value into the active top frame (first-write-wins) and write the
new value into the cache. -/
def GLState.updateCache (st : GLState) (values : KVMap) :
    UpdateResult × GLState :=
  let r := updateEntries values st.cache st.stateStack.head? false .undefined
  ({ valueChanged := r.1, oldValue := r.2.1 },
   { st with cache := r.2.2.1, stateStack := restack r.2.2.2 st.stateStack })

/-- `GLState.push()`: append an empty frame (the `values` argument of the
source is unused). -/
def GLState.push (st : GLState) : GLState :=
  { st with stateStack := [] :: st.stateStack }

/-- The whole tracked context: the underlying native context, the optional
attached `gl.state`, and how many times interceptors have been installed on
the context's operations (0 = unwrapped). -/
structure Ctx where
  native : NativeContext
  glState : Option GLState
  wrapDepth : Nat
  deriving DecidableEq

/-- A call to a hooked setter on the context (`function set(...params)` from
`installSetterSpy`). Per the spec, the per-operation adapter from the
parameter table translates the call's arguments into identifier→value
entries; we model a setter invocation by the entries `values` its adapter
produces. The wrapper forwards them to `_updateCache` and invokes the
original setter only when a real change is reported; it returns `oldValue`.
When the context is untracked, the original setter runs directly. -/
def Ctx.hookedSet (c : Ctx) (values : KVMap) : Value × Ctx :=
  match c.glState with
  | none => (.undefined, { c with native := c.native.origSet values })
  | some st =>
    let r := st.updateCache values
    if r.1.valueChanged then
      (r.1.oldValue,
       { c with glState := some r.2, native := c.native.origSet values })
    else
      (r.1.oldValue, { c with glState := some r.2 })

/-- A call to a hooked getter on the context (`function get(pname)` from
`installGetterOverride`). `blacklist` models membership in
`NON_CACHE_PARAMETERS` (an external configuration set, modelled from the
spec as an arbitrary predicate); `pname = none` models `undefined`. When the
context is untracked, the original getter runs directly. -/
def Ctx.hookedGet (c : Ctx) (blacklist : Key → Bool) (pname : Option Key) :
    Value × Ctx :=
  match c.glState with
  | none =>
    let r := c.native.origGet pname
    (r.1, { c with native := r.2 })
  | some st =>
    match pname with
    | none =>
      let r := c.native.origGet none
      (r.1, { c with native := r.2 })
    | some k =>
      if blacklist k then
        let r := c.native.origGet (some k)
        (r.1, { c with native := r.2 })
      else
        let fill :=
          if KVMap.hasKey st.cache k then (c, st)
          else
            let r := c.native.origGet (some k)
            let st' := { st with cache := KVMap.setValue st.cache k r.1 }
            ({ c with native := r.2, glState := some st' }, st')
        if fill.2.enable then
          (KVMap.getValue fill.2.cache k, fill.1)
        else
          let r := fill.1.native.origGet (some k)
          (r.1, { fill.1 with native := r.2 })

/-- A call to the wrapped `useProgram` (`useProgramLuma` from
`installProgramSpy`): short-circuits entirely when the requested handle
equals the cached `gl.state.program`. When the context is untracked, the
original `useProgram` runs directly. -/
def Ctx.useProgramLuma (c : Ctx) (handle : Option Nat) : Ctx :=
  match c.glState with
  | none => { c with native := c.native.origUseProgram handle }
  | some st =>
    if st.program = handle then c
    else
      { c with native := c.native.origUseProgram handle,
               glState := some { st with program := handle } }

/-- `gl.state.push()` performed on the context. -/
def Ctx.statePush (c : Ctx) : Ctx :=
  { c with glState := c.glState.map GLState.push }

/-- Modelled from the spec: `setParameters` (unified-parameter-api, not under
`src/`) applies each identifier→value entry through the same path as a
normal set operation — the hooked setter — so cache and underlying context
re-synchronize. -/
def Ctx.setParameters (c : Ctx) (values : KVMap) : Ctx :=
  values.foldl (fun acc kv => (Ctx.hookedSet acc [kv]).2) c

/-- Modelled from the spec: a failed `assert` (fatal assertion, immediate
termination of the call), and the TypeError raised by destructuring an
`undefined` options value. -/
inductive JsError where
  | typeError
  | assertionError
  deriving DecidableEq

/-- `popContextState(gl)`: asserts `gl.state` exists, then runs
`gl.state.pop()` — which asserts the stack is non-empty, restores the top
frame's recorded values via `setParameters`, and only then removes the
frame. -/
def popContextState (c : Ctx) : Except JsError Ctx :=
  match c.glState with
  | none => .error .assertionError
  | some st =>
    match st.stateStack with
    | [] => .error .assertionError
    | oldValues :: _ =>
      let c' := Ctx.setParameters c oldValues
      .ok { c' with
            glState := c'.glState.map fun s =>
              { s with stateStack := s.stateStack.tail } }

/-- The `this.stateStack.pop()` step at the end of `GLState.pop`, performed
after the restore completed. -/
def dropTopFrame (c : Ctx) : Ctx :=
  { c with glState := c.glState.map fun s =>
      { s with stateStack := s.stateStack.tail } }

/-- The `options` argument of `trackContextState` (`enable`/`copyState`
members may be `undefined`, modelled as `none`). -/
structure Options where
  enable : Option Bool
  copyState : Option Bool
  deriving DecidableEq

/-- Modelled from the spec: `getParameters` (unified-parameter-api, not
under `src/`) takes a live snapshot of every cacheable parameter from the
context; `defaults` is the `GL_PARAMETER_DEFAULTS` table (external static
configuration). -/
def getParameters (defaults : KVMap) (n : NativeContext) : KVMap :=
  defaults.map fun kv => (kv.1, KVMap.getValue n.params kv.1)

/-- `trackContextState(gl, options)`: destructures `options` (TypeError when
it is `undefined`), asserts `copyState !== undefined`, installs the state
object and the interceptors only when `gl.state` is absent (installation is
modelled by `wrapDepth + 1`), and finally sets `gl.state.enable`. -/
def trackContextState (defaults : KVMap) (c : Ctx) (options : Option Options) :
    Except JsError Ctx :=
  match options with
  | none => .error .typeError
  | some opts =>
    let en := opts.enable.getD true
    match opts.copyState with
    | none => .error .assertionError
    | some copyState =>
      let c1 :=
        match c.glState with
        | some _ => c
        | none =>
          { c with
            glState := some
              { program := none, stateStack := [], enable := true,
                cache := if copyState then getParameters defaults c.native
                         else defaults },
            wrapDepth := c.wrapDepth + 1 }
      .ok { c1 with glState := c1.glState.map fun st => { st with enable := en } }

/-- `pushContextState(gl)`: auto-initializes tracking with
`{copyState: false}` when `gl.state` is absent, then pushes a frame. -/
def pushContextState (defaults : KVMap) (c : Ctx) : Except JsError Ctx := do
  let c1 ←
    match c.glState with
    | none =>
      trackContextState defaults c (some { enable := none, copyState := some false })
    | some _ => .ok c
  .ok c1.statePush

/-- The cache value the tracked context currently stores for `k`. -/
def Ctx.cacheValue (c : Ctx) (k : Key) : Value :=
  match c.glState with
  | some st => KVMap.getValue st.cache k
  | none => .undefined

/-! ### Example contexts used by the witnesses -/

/-- Example underlying context. -/
def natEx : NativeContext := ⟨[(1, .num 9)], none, 0, 0, 0⟩

/-- Example attached state (tracking enabled). -/
def stEx : GLState := ⟨none, [], true, [(1, .num 5), (2, .arr 0 [1, 2])]⟩

/-- Example tracked context. -/
def ctxEx : Ctx := ⟨natEx, some stEx, 1⟩

/-- Example untracked context. -/
def ctxBare : Ctx := ⟨natEx, none, 0⟩

/-- Example attached state with tracking disabled. -/
def stDis : GLState := ⟨none, [], false, [(1, .num 5)]⟩

/-- Example tracked context with tracking disabled. -/
def ctxDis : Ctx := ⟨natEx, some stDis, 1⟩

/-! ### Helper lemmas -/

theorem deepArrayEqual_refl (v : Value) : deepArrayEqual v v = true := by
  cases v <;> simp [deepArrayEqual, jsStrictEq]

theorem deepArrayEqual_symm (a b : Value) :
    deepArrayEqual a b = deepArrayEqual b a := by
  cases a <;> cases b <;>
    simp [deepArrayEqual, jsStrictEq, beq_iff_eq] <;>
    exact ⟨fun h => h.symm, fun h => h.symm⟩

theorem deepArrayEqual_trans {a b c : Value}
    (hab : deepArrayEqual a b = true) (hbc : deepArrayEqual b c = true) :
    deepArrayEqual a c = true := by
  cases a <;> cases b <;> cases c <;>
    simp_all [deepArrayEqual, jsStrictEq, beq_iff_eq]

theorem KVMap.getValue_setValue_self (m : KVMap) (k : Key) (v : Value) :
    KVMap.getValue (KVMap.setValue m k v) k = v := by
  induction m with
  | nil => simp [KVMap.setValue, KVMap.getValue]
  | cons kv rest ih =>
    obtain ⟨k', v'⟩ := kv
    by_cases h : k' = k <;> simp [KVMap.setValue, KVMap.getValue, h, ih]

theorem KVMap.getValue_setValue_ne (m : KVMap) (k k' : Key) (v : Value)
    (h : k' ≠ k) : KVMap.getValue (KVMap.setValue m k v) k' = KVMap.getValue m k' := by
  have h' : k ≠ k' := fun hk => h hk.symm
  induction m with
  | nil => simp [KVMap.setValue, KVMap.getValue, h']
  | cons kv rest ih =>
    obtain ⟨k₀, v₀⟩ := kv
    by_cases h0 : k₀ = k
    · subst h0
      simp [KVMap.setValue, KVMap.getValue, h']
    · simp [KVMap.setValue, KVMap.getValue, h0, ih]

theorem KVMap.hasKey_setValue_self (m : KVMap) (k : Key) (v : Value) :
    KVMap.hasKey (KVMap.setValue m k v) k = true := by
  induction m with
  | nil => simp [KVMap.setValue, KVMap.hasKey]
  | cons kv rest ih =>
    obtain ⟨k', v'⟩ := kv
    by_cases h : k' = k <;> simp [KVMap.setValue, KVMap.hasKey, h, ih]

theorem restack_head (l : List KVMap) : restack l.head? l = l := by
  cases l <;> rfl

theorem updateEntries_single (k : Key) (v : Value) (cache : KVMap)
    (frame : Option KVMap) :
    updateEntries [(k, v)] cache frame false .undefined =
      if deepArrayEqual v (KVMap.getValue cache k) then (false, .undefined, cache, frame)
      else (true, KVMap.getValue cache k, KVMap.setValue cache k v,
        frame.map fun f => if KVMap.hasKey f k then f
          else KVMap.setValue f k (KVMap.getValue cache k)) := by
  by_cases h : deepArrayEqual v (KVMap.getValue cache k) = true <;>
    simp [updateEntries, h]

/-- A hooked setter call whose (single) candidate value deep-equals the cached
value leaves the whole context unchanged — no cache write, no frame record,
and no underlying call. -/
theorem hookedSet_nochange (c : Ctx) (st : GLState) (k : Key) (v : Value)
    (hc : c.glState = some st)
    (h : deepArrayEqual v (KVMap.getValue st.cache k) = true) :
    c.hookedSet [(k, v)] = (.undefined, c) := by
  obtain ⟨n, g, w⟩ := c
  change g = some st at hc; subst hc
  simp [Ctx.hookedSet, GLState.updateCache, updateEntries_single, h, restack_head]

/-- A hooked setter call whose (single) candidate value differs from the
cached value invokes the underlying setter once, writes the cache, and
records the old value into the top frame unless already recorded. -/
theorem hookedSet_change (c : Ctx) (st : GLState) (k : Key) (v : Value)
    (hc : c.glState = some st)
    (h : deepArrayEqual v (KVMap.getValue st.cache k) = false) :
    c.hookedSet [(k, v)] =
      (KVMap.getValue st.cache k,
       { c with
         native := c.native.origSet [(k, v)],
         glState := some { st with
           cache := KVMap.setValue st.cache k v,
           stateStack := restack
             (st.stateStack.head?.map fun f =>
               if KVMap.hasKey f k then f
               else KVMap.setValue f k (KVMap.getValue st.cache k))
             st.stateStack } }) := by
  obtain ⟨n, g, w⟩ := c
  change g = some st at hc; subst hc
  simp [Ctx.hookedSet, GLState.updateCache, updateEntries_single, h]

theorem hookedSet_nochange_mk (n : NativeContext) (pr : Option Nat)
    (stack : List KVMap) (en : Bool) (cache : KVMap) (w : Nat) (k : Key)
    (v : Value) (h : deepArrayEqual v (KVMap.getValue cache k) = true) :
    Ctx.hookedSet ⟨n, some ⟨pr, stack, en, cache⟩, w⟩ [(k, v)] =
      (.undefined, ⟨n, some ⟨pr, stack, en, cache⟩, w⟩) :=
  hookedSet_nochange _ ⟨pr, stack, en, cache⟩ k v rfl h

theorem hookedSet_change_cons (n : NativeContext) (pr : Option Nat)
    (f : KVMap) (stack : List KVMap) (en : Bool) (cache : KVMap) (w : Nat)
    (k : Key) (v : Value)
    (h : deepArrayEqual v (KVMap.getValue cache k) = false) :
    Ctx.hookedSet ⟨n, some ⟨pr, f :: stack, en, cache⟩, w⟩ [(k, v)] =
      (KVMap.getValue cache k,
       ⟨n.origSet [(k, v)],
        some ⟨pr,
          (if KVMap.hasKey f k then f
           else KVMap.setValue f k (KVMap.getValue cache k)) :: stack,
          en, KVMap.setValue cache k v⟩, w⟩) := by
  have hrw := hookedSet_change ⟨n, some ⟨pr, f :: stack, en, cache⟩, w⟩
    ⟨pr, f :: stack, en, cache⟩ k v rfl h
  simpa [restack] using hrw

theorem popContextState_cons (n : NativeContext) (pr : Option Nat) (f : KVMap)
    (stack : List KVMap) (en : Bool) (cache : KVMap) (w : Nat) :
    popContextState ⟨n, some ⟨pr, f :: stack, en, cache⟩, w⟩ =
      .ok (dropTopFrame
        (Ctx.setParameters ⟨n, some ⟨pr, f :: stack, en, cache⟩, w⟩ f)) := rfl

theorem dropTopFrame_mk (n : NativeContext) (pr : Option Nat) (f : KVMap)
    (stack : List KVMap) (en : Bool) (cache : KVMap) (w : Nat) :
    dropTopFrame ⟨n, some ⟨pr, f :: stack, en, cache⟩, w⟩ =
      ⟨n, some ⟨pr, stack, en, cache⟩, w⟩ := rfl

theorem setParameters_single (c : Ctx) (k : Key) (v : Value) :
    Ctx.setParameters c [(k, v)] = (c.hookedSet [(k, v)]).2 := rfl

theorem setParameters_nil (c : Ctx) : Ctx.setParameters c [] = c := rfl

theorem bind_ok (x : Ctx) (f : Ctx → Except JsError Ctx) :
    Except.bind (Except.ok x) f = f x := rfl

theorem mem_of_forall₂ {α β : Type} {R : α → β → Prop} :
    ∀ {as : List α} {bs : List β}, List.Forall₂ R as bs →
      ∀ b ∈ bs, ∃ a ∈ as, R a b := by
  intro as bs h
  induction h with
  | nil => intro b hb; exact absurd hb (List.not_mem_nil b)
  | cons hR _ ih =>
    intro b hb
    rcases List.mem_cons.mp hb with rfl | hb'
    · exact ⟨_, List.mem_cons_self _ _, hR⟩
    · obtain ⟨a, ha, hab⟩ := ih b hb'
      exact ⟨a, List.mem_cons_of_mem _ ha, hab⟩

/-- When every candidate entry already deep-equals its cached value, the
`_updateCache` loop is a complete no-op. -/
theorem updateEntries_nochange (vs : KVMap) :
    ∀ (cache : KVMap) (frame : Option KVMap) (ch : Bool) (old : Value),
      (∀ kv ∈ vs, deepArrayEqual kv.2 (KVMap.getValue cache kv.1) = true) →
      updateEntries vs cache frame ch old = (ch, old, cache, frame) := by
  induction vs with
  | nil => intro cache frame ch old _; rfl
  | cons kv rest ih =>
    intro cache frame ch old h
    obtain ⟨k, v⟩ := kv
    have hk : deepArrayEqual v (KVMap.getValue cache k) = true :=
      h (k, v) (List.mem_cons_self _ _)
    simp only [updateEntries, hk, if_true]
    exact ih cache frame ch old fun kv hkv => h kv (List.mem_cons_of_mem _ hkv)

/-- The `_updateCache` loop leaves cache entries for keys outside the batch
untouched. -/
theorem updateEntries_getValue_notMem (vs : KVMap) :
    ∀ (cache : KVMap) (frame : Option KVMap) (ch : Bool) (old : Value)
      (k : Key), (∀ kv ∈ vs, kv.1 ≠ k) →
      KVMap.getValue (updateEntries vs cache frame ch old).2.2.1 k =
        KVMap.getValue cache k := by
  induction vs with
  | nil => intro cache frame ch old k _; rfl
  | cons kv rest ih =>
    intro cache frame ch old k h
    obtain ⟨k₁, v₁⟩ := kv
    have hne : k₁ ≠ k := h (k₁, v₁) (List.mem_cons_self _ _)
    have hrest : ∀ kv ∈ rest, kv.1 ≠ k :=
      fun kv hkv => h kv (List.mem_cons_of_mem _ hkv)
    by_cases hd : deepArrayEqual v₁ (KVMap.getValue cache k₁) = true
    · simp only [updateEntries, hd, if_true]
      exact ih cache frame ch old k hrest
    · simp only [updateEntries, hd, Bool.false_eq_true, if_false]
      rw [ih _ _ _ _ k hrest]
      exact KVMap.getValue_setValue_ne cache k₁ k v₁
        fun hkk => hne hkk.symm

/-- After the `_updateCache` loop ran on a batch with pairwise-distinct keys,
the cache value of each key in the batch deep-equals the batch value. -/
theorem updateEntries_getValue_mem (vs : KVMap) :
    ∀ (cache : KVMap) (frame : Option KVMap) (ch : Bool) (old : Value),
      (vs.map Prod.fst).Nodup →
      ∀ kv ∈ vs, deepArrayEqual
        (KVMap.getValue (updateEntries vs cache frame ch old).2.2.1 kv.1)
        kv.2 = true := by
  induction vs with
  | nil => intro _ _ _ _ _ kv hkv; exact absurd hkv (List.not_mem_nil kv)
  | cons kv₀ rest ih =>
    intro cache frame ch old hnd kv hkv
    obtain ⟨k₀, v₀⟩ := kv₀
    rw [List.map_cons, List.nodup_cons] at hnd
    rcases List.mem_cons.mp hkv with rfl | hmem
    · have hrest_ne : ∀ kv' ∈ rest, kv'.1 ≠ k₀ := by
        intro kv' hkv' he
        exact hnd.1 (List.mem_map.mpr ⟨kv', hkv', he⟩)
      by_cases hd : deepArrayEqual v₀ (KVMap.getValue cache k₀) = true
      · simp only [updateEntries, hd, if_true]
        rw [updateEntries_getValue_notMem rest _ _ _ _ k₀ hrest_ne]
        rw [deepArrayEqual_symm]
        exact hd
      · simp only [updateEntries, hd, Bool.false_eq_true, if_false]
        rw [updateEntries_getValue_notMem rest _ _ _ _ k₀ hrest_ne,
          KVMap.getValue_setValue_self]
        exact deepArrayEqual_refl v₀
    · by_cases hd : deepArrayEqual v₀ (KVMap.getValue cache k₀) = true
      · simp only [updateEntries, hd, if_true]
        exact ih _ _ _ _ hnd.2 kv hmem
      · simp only [updateEntries, hd, Bool.false_eq_true, if_false]
        exact ih _ _ _ _ hnd.2 kv hmem

/-- Explicit description of a hooked setter call on a tracked context struct
in terms of the `_updateCache` loop. -/
theorem hookedSet_mk (n : NativeContext) (pr : Option Nat)
    (stack : List KVMap) (en : Bool) (cache : KVMap) (w : Nat) (vs : KVMap) :
    Ctx.hookedSet ⟨n, some ⟨pr, stack, en, cache⟩, w⟩ vs =
      ((updateEntries vs cache stack.head? false .undefined).2.1,
       ⟨(if (updateEntries vs cache stack.head? false .undefined).1 = true
         then n.origSet vs else n),
        some ⟨pr,
          restack (updateEntries vs cache stack.head? false .undefined).2.2.2 stack,
          en, (updateEntries vs cache stack.head? false .undefined).2.2.1⟩, w⟩) := by
  by_cases hch : (updateEntries vs cache stack.head? false .undefined).1 = true <;>
    simp [Ctx.hookedSet, GLState.updateCache, hch]

/-- A hooked setter call whose candidate values all deep-equal their cached
values leaves the whole context unchanged. -/
theorem hookedSet_noop_of_nochange (n : NativeContext) (pr : Option Nat)
    (stack : List KVMap) (en : Bool) (cache : KVMap) (w : Nat) (vs : KVMap)
    (hprem : ∀ kv ∈ vs, deepArrayEqual kv.2 (KVMap.getValue cache kv.1) = true) :
    Ctx.hookedSet ⟨n, some ⟨pr, stack, en, cache⟩, w⟩ vs =
      (.undefined, ⟨n, some ⟨pr, stack, en, cache⟩, w⟩) := by
  rw [hookedSet_mk, updateEntries_nochange vs cache stack.head? false .undefined hprem]
  simp [restack_head]

/-! ### Claims -/

/-- Claim C1: hooked setters elide repeated calls. On a tracked context,
after a hooked setter invocation whose adapter produced entries with
pairwise-distinct keys, a second invocation whose entries have the same keys
and deep-structurally equal values — including element-wise equal arrays in
distinct containers — does not invoke the underlying operation and leaves
the whole context unchanged, while the first call invoked the underlying
operation at most once: repeated invocations with the same arguments after
the first call make exactly one underlying call in total. -/
theorem claim_C1_setter_elision (c : Ctx) (st : GLState) (vs vsr : KVMap)
    (hc : c.glState = some st)
    (hnd : (vs.map Prod.fst).Nodup)
    (hmatch : List.Forall₂
      (fun a b => a.1 = b.1 ∧ deepArrayEqual b.2 a.2 = true) vs vsr) :
    ((c.hookedSet vs).2.hookedSet vsr).2 = (c.hookedSet vs).2 ∧
    (c.hookedSet vs).2.native.setterCalls ≤ c.native.setterCalls + 1 := by
  obtain ⟨n, g, w⟩ := c
  change g = some st at hc; subst hc
  obtain ⟨pr, stack, en, cache⟩ := st
  constructor
  · rw [hookedSet_mk n pr stack en cache w vs]
    have hprem : ∀ kv ∈ vsr, deepArrayEqual kv.2
        (KVMap.getValue
          (updateEntries vs cache stack.head? false .undefined).2.2.1 kv.1) =
        true := by
      intro kv' hkv'
      obtain ⟨kv, hkv, hk1, hk2⟩ : ∃ a ∈ vs, a.1 = kv'.1 ∧
          deepArrayEqual kv'.2 a.2 = true := mem_of_forall₂ hmatch kv' hkv'
      have hB := updateEntries_getValue_mem vs cache stack.head? false .undefined
        hnd kv hkv
      rw [← hk1]
      refine deepArrayEqual_trans hk2 ?_
      rw [deepArrayEqual_symm]
      exact hB
    rw [hookedSet_noop_of_nochange _ pr _ en _ w vsr hprem]
  · rw [hookedSet_mk n pr stack en cache w vs]
    by_cases hch : (updateEntries vs cache stack.head? false .undefined).1 = true <;>
      simp [hch, NativeContext.origSet, Nat.le_succ]

theorem claim_C1_witness :
    ((ctxEx.hookedSet [(2, .arr 7 [3, 4])]).2.hookedSet
        [(2, .arr 8 [3, 4])]).2 = (ctxEx.hookedSet [(2, .arr 7 [3, 4])]).2 ∧
    (ctxEx.hookedSet [(2, .arr 7 [3, 4])]).2.native.setterCalls ≤
      ctxEx.native.setterCalls + 1 :=
  claim_C1_setter_elision ctxEx stEx [(2, .arr 7 [3, 4])] [(2, .arr 8 [3, 4])]
    rfl (by decide) (List.Forall₂.cons ⟨rfl, rfl⟩ List.Forall₂.nil)

/-- Claim C2: scope frames record values first-write-wins. For an identifier
`A` cached as `v0` when a frame is pushed, after `push(); set A to v1;
set A to v2; pop()` the cached (restored) value of `A` is `v0` — deep-equal
to `v0`, exactly as the restore path itself compares values — not `v1`: a
later change within the same scope never overwrites the value recorded at
the first change, so each identifier appears at most once per frame. -/
theorem claim_C2_first_write_wins (c : Ctx) (st : GLState) (A : Key)
    (v0 v1 v2 : Value) (hc : c.glState = some st)
    (h0 : KVMap.getValue st.cache A = v0) :
    (popContextState (((c.statePush.hookedSet [(A, v1)]).2.hookedSet
        [(A, v2)]).2)).map (fun cf => deepArrayEqual (cf.cacheValue A) v0) =
      .ok true := by
  obtain ⟨n, g, w⟩ := c
  change g = some st at hc; subst hc
  obtain ⟨pr, stack, en, cache⟩ := st
  change KVMap.getValue cache A = v0 at h0
  subst h0
  have hpush : Ctx.statePush ⟨n, some ⟨pr, stack, en, cache⟩, w⟩ =
      ⟨n, some ⟨pr, [] :: stack, en, cache⟩, w⟩ := rfl
  rw [hpush]
  by_cases d1 : deepArrayEqual v1 (KVMap.getValue cache A) = true
  · rw [hookedSet_nochange_mk n pr ([] :: stack) en cache w A v1 d1]
    by_cases d2 : deepArrayEqual v2 (KVMap.getValue cache A) = true
    · rw [hookedSet_nochange_mk n pr ([] :: stack) en cache w A v2 d2,
        popContextState_cons, setParameters_nil]
      simp [Except.map, dropTopFrame_mk, Ctx.cacheValue, deepArrayEqual_refl]
    · rw [hookedSet_change_cons n pr [] stack en cache w A v2
        (by simpa using d2)]
      simp only [KVMap.hasKey, if_false, Bool.false_eq_true, KVMap.setValue]
      rw [popContextState_cons, setParameters_single]
      have hback : deepArrayEqual (KVMap.getValue cache A)
          (KVMap.getValue (KVMap.setValue cache A v2) A) = false := by
        rw [KVMap.getValue_setValue_self, deepArrayEqual_symm]
        simpa using d2
      rw [hookedSet_change_cons (n.origSet [(A, v2)]) pr
        [(A, KVMap.getValue cache A)] stack en (KVMap.setValue cache A v2) w
        A (KVMap.getValue cache A) hback]
      simp [Except.map, dropTopFrame_mk, Ctx.cacheValue,
        KVMap.getValue_setValue_self, KVMap.hasKey, deepArrayEqual_refl]
  · rw [hookedSet_change_cons n pr [] stack en cache w A v1
      (by simpa using d1)]
    simp only [KVMap.hasKey, if_false, Bool.false_eq_true, KVMap.setValue]
    by_cases d2 : deepArrayEqual v2
        (KVMap.getValue (KVMap.setValue cache A v1) A) = true
    · rw [hookedSet_nochange_mk _ pr _ en _ w A v2 d2,
        popContextState_cons, setParameters_single]
      have hback : deepArrayEqual (KVMap.getValue cache A)
          (KVMap.getValue (KVMap.setValue cache A v1) A) = false := by
        rw [KVMap.getValue_setValue_self, deepArrayEqual_symm]
        simpa using d1
      rw [hookedSet_change_cons (n.origSet [(A, v1)]) pr
        [(A, KVMap.getValue cache A)] stack en (KVMap.setValue cache A v1) w
        A (KVMap.getValue cache A) hback]
      simp [Except.map, dropTopFrame_mk, Ctx.cacheValue,
        KVMap.getValue_setValue_self, KVMap.hasKey, deepArrayEqual_refl]
    · rw [hookedSet_change_cons (n.origSet [(A, v1)]) pr
        [(A, KVMap.getValue cache A)] stack en (KVMap.setValue cache A v1) w
        A v2 (by simpa using d2)]
      simp only [KVMap.hasKey, if_true, KVMap.setValue]
      rw [popContextState_cons, setParameters_single]
      by_cases d3 : deepArrayEqual (KVMap.getValue cache A)
          (KVMap.getValue (KVMap.setValue (KVMap.setValue cache A v1) A v2) A)
          = true
      · rw [hookedSet_nochange_mk _ pr _ en _ w A (KVMap.getValue cache A) d3]
        have d3s : deepArrayEqual v2 (KVMap.getValue cache A) = true := by
          rw [deepArrayEqual_symm]
          simpa [KVMap.getValue_setValue_self] using d3
        simp [Except.map, dropTopFrame_mk, Ctx.cacheValue,
          KVMap.getValue_setValue_self, d3s]
      · rw [hookedSet_change_cons _ pr _ stack en _ w A
          (KVMap.getValue cache A) (by simpa using d3)]
        simp [Except.map, dropTopFrame_mk, Ctx.cacheValue,
          KVMap.getValue_setValue_self, KVMap.hasKey, deepArrayEqual_refl]

theorem claim_C2_witness :
    (popContextState (((ctxEx.statePush.hookedSet [(1, .num 6)]).2.hookedSet
        [(1, .num 7)]).2)).map
      (fun cf => deepArrayEqual (cf.cacheValue 1) (.num 5)) = .ok true :=
  claim_C2_first_write_wins ctxEx stEx 1 (.num 5) (.num 6) (.num 7) rfl rfl

/-- Claim C3: nested scopes restore level by level. For an identifier `A`
cached as `v0`, after `push(); set A v1; push(); set A v2`, the first `pop()`
leaves `A` cached as `v1` (deep-equal, exactly as the restore path itself
compares values) and a second `pop()` leaves `A` cached as `v0` — which
requires that `pop` removes the top frame only after applying its recorded
values, so changes made during the restore are attributed to the frame being
restored rather than to the next-outer frame. -/
theorem claim_C3_nested_scopes (c : Ctx) (st : GLState) (A : Key)
    (v0 v1 v2 : Value) (hc : c.glState = some st)
    (h0 : KVMap.getValue st.cache A = v0) :
    (popContextState (((c.statePush.hookedSet [(A, v1)]).2.statePush.hookedSet
        [(A, v2)]).2)).map (fun cf => deepArrayEqual (cf.cacheValue A) v1) =
      .ok true ∧
    (Except.bind (popContextState (((c.statePush.hookedSet
        [(A, v1)]).2.statePush.hookedSet [(A, v2)]).2)) popContextState).map
      (fun cf => deepArrayEqual (cf.cacheValue A) v0) = .ok true := by
  obtain ⟨n, g, w⟩ := c
  change g = some st at hc; subst hc
  obtain ⟨pr, stack, en, cache⟩ := st
  change KVMap.getValue cache A = v0 at h0
  subst h0
  have hpush1 : Ctx.statePush ⟨n, some ⟨pr, stack, en, cache⟩, w⟩ =
      ⟨n, some ⟨pr, [] :: stack, en, cache⟩, w⟩ := rfl
  rw [hpush1]
  by_cases d1 : deepArrayEqual v1 (KVMap.getValue cache A) = true
  · rw [hookedSet_nochange_mk n pr ([] :: stack) en cache w A v1 d1]
    have hpush2 : Ctx.statePush ⟨n, some ⟨pr, [] :: stack, en, cache⟩, w⟩ =
        ⟨n, some ⟨pr, [] :: [] :: stack, en, cache⟩, w⟩ := rfl
    rw [hpush2]
    have d1s : deepArrayEqual (KVMap.getValue cache A) v1 = true := by
      rw [deepArrayEqual_symm]; exact d1
    by_cases d2 : deepArrayEqual v2 (KVMap.getValue cache A) = true
    · rw [hookedSet_nochange_mk n pr ([] :: [] :: stack) en cache w A v2 d2,
        popContextState_cons, setParameters_nil, dropTopFrame_mk, bind_ok,
        popContextState_cons, setParameters_nil, dropTopFrame_mk]
      simp [Except.map, Ctx.cacheValue, d1s, deepArrayEqual_refl]
    · rw [hookedSet_change_cons n pr [] ([] :: stack) en cache w A v2
        (by simpa using d2)]
      simp only [KVMap.hasKey, if_false, Bool.false_eq_true, KVMap.setValue]
      rw [popContextState_cons, setParameters_single]
      have hb1 : deepArrayEqual (KVMap.getValue cache A)
          (KVMap.getValue (KVMap.setValue cache A v2) A) = false := by
        rw [KVMap.getValue_setValue_self, deepArrayEqual_symm]
        simpa using d2
      rw [hookedSet_change_cons (n.origSet [(A, v2)]) pr
        [(A, KVMap.getValue cache A)] ([] :: stack) en
        (KVMap.setValue cache A v2) w A (KVMap.getValue cache A) hb1]
      simp only [KVMap.hasKey, if_true, KVMap.setValue]
      rw [dropTopFrame_mk, bind_ok, popContextState_cons, setParameters_nil,
        dropTopFrame_mk]
      simp [Except.map, Ctx.cacheValue, KVMap.getValue_setValue_self, d1s,
        deepArrayEqual_refl]
  · rw [hookedSet_change_cons n pr [] stack en cache w A v1
      (by simpa using d1)]
    simp only [KVMap.hasKey, if_false, Bool.false_eq_true, KVMap.setValue]
    have hpush2 : Ctx.statePush ⟨n.origSet [(A, v1)],
        some ⟨pr, [(A, KVMap.getValue cache A)] :: stack, en,
          KVMap.setValue cache A v1⟩, w⟩ =
        ⟨n.origSet [(A, v1)],
         some ⟨pr, [] :: [(A, KVMap.getValue cache A)] :: stack, en,
           KVMap.setValue cache A v1⟩, w⟩ := rfl
    rw [hpush2]
    have hb0 : deepArrayEqual (KVMap.getValue cache A)
        (KVMap.getValue (KVMap.setValue cache A v1) A) = false := by
      rw [KVMap.getValue_setValue_self, deepArrayEqual_symm]
      simpa using d1
    by_cases d2 : deepArrayEqual v2
        (KVMap.getValue (KVMap.setValue cache A v1) A) = true
    · rw [hookedSet_nochange_mk _ pr _ en _ w A v2 d2,
        popContextState_cons, setParameters_nil, dropTopFrame_mk, bind_ok,
        popContextState_cons, setParameters_single]
      rw [hookedSet_change_cons (n.origSet [(A, v1)]) pr
        [(A, KVMap.getValue cache A)] stack en (KVMap.setValue cache A v1) w
        A (KVMap.getValue cache A) hb0]
      simp only [KVMap.hasKey, if_true, KVMap.setValue]
      rw [dropTopFrame_mk]
      simp [Except.map, Ctx.cacheValue, KVMap.getValue_setValue_self,
        deepArrayEqual_refl]
    · rw [hookedSet_change_cons (n.origSet [(A, v1)]) pr []
        ([(A, KVMap.getValue cache A)] :: stack) en
        (KVMap.setValue cache A v1) w A v2 (by simpa using d2)]
      simp only [KVMap.hasKey, if_false, Bool.false_eq_true, KVMap.setValue]
      rw [popContextState_cons, setParameters_single]
      have hb2 : deepArrayEqual
          (KVMap.getValue (KVMap.setValue cache A v1) A)
          (KVMap.getValue
            (KVMap.setValue (KVMap.setValue cache A v1) A v2) A) = false := by
        simp only [KVMap.getValue_setValue_self]
        rw [deepArrayEqual_symm]
        simpa [KVMap.getValue_setValue_self] using d2
      rw [hookedSet_change_cons ((n.origSet [(A, v1)]).origSet [(A, v2)]) pr
        [(A, KVMap.getValue (KVMap.setValue cache A v1) A)]
        ([(A, KVMap.getValue cache A)] :: stack) en
        (KVMap.setValue (KVMap.setValue cache A v1) A v2) w A
        (KVMap.getValue (KVMap.setValue cache A v1) A) hb2]
      simp only [KVMap.hasKey, if_true, KVMap.setValue]
      rw [dropTopFrame_mk, bind_ok, popContextState_cons, setParameters_single]
      have hb3 : deepArrayEqual (KVMap.getValue cache A)
          (KVMap.getValue (KVMap.setValue
            (KVMap.setValue (KVMap.setValue cache A v1) A v2) A
            (KVMap.getValue (KVMap.setValue cache A v1) A)) A) = false := by
        simp only [KVMap.getValue_setValue_self]
        rw [deepArrayEqual_symm]
        simpa using d1
      rw [hookedSet_change_cons _ pr [(A, KVMap.getValue cache A)] stack en _
        w A (KVMap.getValue cache A) hb3]
      simp only [KVMap.hasKey, if_true, KVMap.setValue]
      rw [dropTopFrame_mk]
      simp [Except.map, Ctx.cacheValue, KVMap.getValue_setValue_self,
        deepArrayEqual_refl]

theorem claim_C3_witness :
    (popContextState (((ctxEx.statePush.hookedSet
        [(1, .num 6)]).2.statePush.hookedSet [(1, .num 7)]).2)).map
      (fun cf => deepArrayEqual (cf.cacheValue 1) (.num 6)) = .ok true ∧
    (Except.bind (popContextState (((ctxEx.statePush.hookedSet
        [(1, .num 6)]).2.statePush.hookedSet [(1, .num 7)]).2))
        popContextState).map
      (fun cf => deepArrayEqual (cf.cacheValue 1) (.num 5)) = .ok true :=
  claim_C3_nested_scopes ctxEx stEx 1 (.num 5) (.num 6) (.num 7) rfl rfl

/-- Claim C4: on a tracked context, `push()` immediately followed by `pop()`
with no intervening set operations is an identity on the cache, the scope
stack, and the underlying context: the whole context is restored exactly and
zero underlying restore calls are issued (the empty frame makes the restore
a no-op). -/
theorem claim_C4_push_pop_identity (c : Ctx) (st : GLState)
    (hc : c.glState = some st) :
    popContextState c.statePush = .ok c := by
  obtain ⟨n, g, w⟩ := c
  change g = some st at hc; subst hc
  rfl

theorem claim_C4_witness : popContextState ctxEx.statePush = .ok ctxEx :=
  claim_C4_push_pop_identity ctxEx stEx rfl

/-- Claim C5: calling `trackContextState` a second time on an already-tracked
context is a no-op except for updating the `enable` flag: no operations are
re-wrapped (`wrapDepth` is unchanged), the existing cache and scope stack are
preserved, and the already-tracked context is returned — so a later push/pop
cycle behaves identically to one before the second initialization. -/
theorem claim_C5_track_idempotent (defaults : KVMap) (c : Ctx) (st : GLState)
    (opts : Options) (b : Bool) (hc : c.glState = some st)
    (hcs : opts.copyState = some b) :
    trackContextState defaults c (some opts) =
      .ok { c with glState := some { st with enable := opts.enable.getD true } } := by
  obtain ⟨n, g, w⟩ := c
  change g = some st at hc; subst hc
  obtain ⟨en, cs⟩ := opts
  change cs = some b at hcs; subst hcs
  rfl

theorem claim_C5_witness :
    trackContextState [] ctxEx (some ⟨some false, some true⟩) =
      .ok { ctxEx with glState := some { stEx with enable := false } } :=
  claim_C5_track_idempotent [] ctxEx stEx ⟨some false, some true⟩ true rfl rfl

/-- Claim C6: `pop` with an empty scope stack fails with a fatal assertion,
and the public `popContextState` on a context whose tracking was never
initialized fails with a fatal assertion (immediate termination, no recovery
channel); in particular `popContextState` never auto-initializes tracking. -/
theorem claim_C6_pop_assertions :
    (∀ (c : Ctx) (st : GLState), c.glState = some st → st.stateStack = [] →
      popContextState c = .error .assertionError) ∧
    (∀ c : Ctx, c.glState = none →
      popContextState c = .error .assertionError) := by
  constructor
  · intro c st hc hs
    simp [popContextState, hc, hs]
  · intro c hc
    simp [popContextState, hc]

theorem claim_C6_witness :
    popContextState ctxEx = .error .assertionError ∧
    popContextState ctxBare = .error .assertionError :=
  ⟨claim_C6_pop_assertions.1 ctxEx stEx rfl rfl,
   claim_C6_pop_assertions.2 ctxBare rfl⟩

/-- Claim C7: a get-style query with an undefined (`none`) or blacklisted
identifier performs a live read through the original getter and leaves the
cache — indeed the whole attached state — unchanged: it neither reads from
nor writes any cache entry for that identifier (the result is the live
native value regardless of what the cache holds). -/
theorem claim_C7_blacklist_live_read (c : Ctx) (st : GLState)
    (blacklist : Key → Bool) (pname : Option Key) (hc : c.glState = some st)
    (hbl : pname = none ∨ ∃ k, pname = some k ∧ blacklist k = true) :
    c.hookedGet blacklist pname =
      ((c.native.origGet pname).1,
       { c with native := (c.native.origGet pname).2 }) := by
  obtain ⟨n, g, w⟩ := c
  change g = some st at hc; subst hc
  rcases hbl with h | ⟨k, hk, hbk⟩
  · subst h; rfl
  · subst hk
    simp [Ctx.hookedGet, hbk]

theorem claim_C7_witness :
    ctxEx.hookedGet (fun k => k == 2) (some 2) =
      ((ctxEx.native.origGet (some 2)).1,
       { ctxEx with native := (ctxEx.native.origGet (some 2)).2 }) :=
  claim_C7_blacklist_live_read ctxEx stEx (fun k => k == 2) (some 2) rfl
    (Or.inr ⟨2, rfl, rfl⟩)

/-- Claim C8: with tracking disabled (`enable = false`), a get-style query
for a cacheable identifier with an existing cache entry performs a live read
through the original getter (leaving the attached state unchanged), while
hooked setters still update the cache via the update routine and still elide
the underlying call when the candidate value deep-equals the cached value. -/
theorem claim_C8_disabled_tracking (c : Ctx) (st : GLState)
    (blacklist : Key → Bool) (k : Key) (v : Value)
    (hc : c.glState = some st) (hen : st.enable = false)
    (hbk : blacklist k = false) (hk : KVMap.hasKey st.cache k = true) :
    c.hookedGet blacklist (some k) =
      ((c.native.origGet (some k)).1,
       { c with native := (c.native.origGet (some k)).2 }) ∧
    (deepArrayEqual v (KVMap.getValue st.cache k) = true →
      c.hookedSet [(k, v)] = (.undefined, c)) ∧
    (deepArrayEqual v (KVMap.getValue st.cache k) = false →
      Ctx.cacheValue (c.hookedSet [(k, v)]).2 k = v ∧
      (c.hookedSet [(k, v)]).2.native.setterCalls = c.native.setterCalls + 1) := by
  refine ⟨?_, fun hd => hookedSet_nochange c st k v hc hd, fun hd => ?_⟩
  · obtain ⟨n, g, w⟩ := c
    change g = some st at hc; subst hc
    simp [Ctx.hookedGet, hbk, hk, hen]
  · rw [hookedSet_change c st k v hc hd]
    constructor
    · simp [Ctx.cacheValue, KVMap.getValue_setValue_self]
    · simp [NativeContext.origSet]

theorem claim_C8_witness :
    ctxDis.hookedGet (fun _ => false) (some 1) =
      ((ctxDis.native.origGet (some 1)).1,
       { ctxDis with native := (ctxDis.native.origGet (some 1)).2 }) ∧
    ctxDis.hookedSet [(1, .num 5)] = (.undefined, ctxDis) :=
  ⟨(claim_C8_disabled_tracking ctxDis stDis (fun _ => false) 1 (.num 5)
      rfl rfl rfl rfl).1,
   (claim_C8_disabled_tracking ctxDis stDis (fun _ => false) 1 (.num 5)
      rfl rfl rfl rfl).2.1 rfl⟩

/-- Claim C9: the wrapped `useProgram` short-circuits entirely when the
requested program handle equals the cached `gl.state.program` handle —
skipping even the underlying call and leaving the cached handle (and the
whole context) unchanged; when the handle differs it invokes the underlying
operation and then records the new handle. -/
theorem claim_C9_program_spy (c : Ctx) (st : GLState) (handle : Option Nat)
    (hc : c.glState = some st) :
    (st.program = handle → c.useProgramLuma handle = c) ∧
    (st.program ≠ handle → c.useProgramLuma handle =
      { c with native := c.native.origUseProgram handle,
               glState := some { st with program := handle } }) := by
  obtain ⟨n, g, w⟩ := c
  change g = some st at hc; subst hc
  constructor
  · intro he; simp [Ctx.useProgramLuma, he]
  · intro hne; simp [Ctx.useProgramLuma, hne]

theorem claim_C9_witness :
    ctxEx.useProgramLuma none = ctxEx ∧
    ctxEx.useProgramLuma (some 3) =
      { ctxEx with native := ctxEx.native.origUseProgram (some 3),
                   glState := some { stEx with program := some 3 } } :=
  ⟨(claim_C9_program_spy ctxEx stEx none rfl).1 rfl,
   (claim_C9_program_spy ctxEx stEx (some 3) rfl).2 (by decide)⟩

/-- Claim C10: `trackContextState` with no options argument fails immediately
(the destructuring of the undefined options value raises a TypeError), and a
supplied options object whose `copyState` member is undefined trips the fatal
assertion — in both cases regardless of whether the context is already
tracked, so even the enable-toggle-only reinitialization requires
`copyState`. -/
theorem claim_C10_options_mandatory :
    (∀ (defaults : KVMap) (c : Ctx),
      trackContextState defaults c none = .error .typeError) ∧
    (∀ (defaults : KVMap) (c : Ctx) (en : Option Bool),
      trackContextState defaults c (some ⟨en, none⟩) = .error .assertionError) :=
  ⟨fun _ _ => rfl, fun _ _ _ => rfl⟩

end LumaState
